import Mathlib

/-!
Verification of the e-ink graphics library (`lib.rs`, `ssd1680.rs`).

Embedding conventions:
* `u8` / `u16` values are `Nat`s; wrapping arithmetic is written with an explicit
  `% 256` / `% 65536` at exactly the places where the Rust (release-mode) code can wrap.
  `u16` products that are provably below `2^16` (`i * 8` with `i ≤ w / 8 ≤ 8191`) are
  written without the redundant `%`.
* The statically sized Rust array `frame_buffer : [u8; FRAME_BUFFER_SIZE]` is embedded as a
  total function `Nat → Nat` together with an explicit `idx < FRAME_BUFFER_SIZE` check at
  every access, mirroring Rust's panicking index operator.  Rust panics
  (out-of-bounds indexing, `copy_from_slice` length mismatch, slicing past the end,
  `unimplemented!()`) are the `RsPanic` error channel of `Except`; the library itself
  never constructs an error value of its `Result` type except by propagating a
  controller-driver failure, which is modelled in `refresh` by a separate `Except E` layer.
* The external controller driver (`ssd1680_rs::SSD1680`) is out of scope; `refresh`
  receives the outcome of each of its five delegated operations as a `DriverOutcomes`
  record and additionally returns the list of delegated operations it actually invoked,
  in order.
-/

/-- `FRAME_BUFFER_SIZE` from `ssd1680.rs`: the frame buffer array holds `176 * 296` bytes. -/
def FRAME_BUFFER_SIZE : Nat := 176 * 296

/-- `TransparencySetting` from `lib.rs`. -/
inductive TransparencySetting where
  | none
  | blackTransparent
  | whiteTransparent
deriving DecidableEq, Repr

/-- Rust runtime aborts that the embedded code can hit. -/
inductive RsPanic where
  | indexOutOfBounds
  | sliceLenMismatch
  | sliceOutOfBounds
  | unimplemented
deriving DecidableEq, Repr

/-- `0xff_u8.checked_shr(s).unwrap_or(0)`: a `u8` shifted right, `0` when `s ≥ 8`. -/
def u8CheckedShrOr0 (v s : Nat) : Nat := if s < 8 then v >>> s else 0

/-- `0xff_u8.checked_shl(s).unwrap_or(0)`: a `u8` shifted left (dropping high bits),
`0` when `s ≥ 8`. -/
def u8CheckedShlOr0 (v s : Nat) : Nat := if s < 8 then (v <<< s) % 256 else 0

/-- Plain `u8` left shift `v << s` (high bits dropped); the code only executes it
with `s < 8`. -/
def u8Shl (v s : Nat) : Nat := (v <<< s) % 256

/-- `Address` from `ssd1680.rs`. -/
structure Address where
  buffer_position : Nat
  byte_offset : Nat
deriving DecidableEq, Repr

/-- `get_address` from `ssd1680.rs`:
`(x / 8 + y * width / 8) as usize` and `(x % 8) as u8`, all in `u16` arithmetic,
so the product `y * width` wraps at `2^16`.  The final sum is at most
`8191 + 8191` and cannot wrap. -/
def get_address (x y width : Nat) : Address :=
  { buffer_position := x / 8 + y * width % 65536 / 8
    byte_offset := x % 8 }

/-- `Ssd1680Display` (driver handle omitted; the frame-buffer array is a function,
see the header).  `width`, `height`, `refresh_count` are `u16`, `u16`, `u8`. -/
structure Ssd1680Display where
  frame_buffer : Nat → Nat
  width : Nat
  height : Nat
  refresh_count : Nat

/-- `Ssd1680Display::new`: zeroed frame buffer, geometry from the config,
`refresh_count` starts at `10`. -/
def Ssd1680Display.new (width height : Nat) : Ssd1680Display :=
  { frame_buffer := fun _ => 0
    width := width
    height := height
    refresh_count := 10 }

/-- `set_buffer`: `self.frame_buffer.copy_from_slice(buffer)` panics unless the
source slice length equals the destination array length (`FRAME_BUFFER_SIZE`);
on success it copies byte for byte and the function returns `Ok(())`. -/
def set_buffer (d : Ssd1680Display) (buffer : List Nat) : Except RsPanic Ssd1680Display :=
  if buffer.length = FRAME_BUFFER_SIZE then
    .ok { d with frame_buffer := fun idx => buffer.getD idx 0 }
  else .error RsPanic.sliceLenMismatch

/-- One iteration of the inner loop body of `draw_buffer_with_transparency`
(for a given `j`, `i`): read the destination byte, optionally fold in the tail of the
previous source byte (`i != 0 && offset != 0`), optionally fold in the head of
the current source byte (`i < w / 8`), and write the byte back. -/
def drawStepE (fb : Nat → Nat) (buffer : List Nat) (x y w width : Nat)
    (t : TransparencySetting) (j i : Nat) : Except RsPanic (Nat → Nat) :=
  let afb := get_address ((x + i * 8) % 65536) ((y + j) % 65536) width
  let ab := get_address (i * 8) j w
  if afb.buffer_position < FRAME_BUFFER_SIZE then
    let fb0 := fb afb.buffer_position
    let offset := afb.byte_offset
    let step1 : Except RsPanic Nat :=
      if i ≠ 0 ∧ offset ≠ 0 then
        if ab.buffer_position - 1 < buffer.length then
          let previous_byte := buffer.getD (ab.buffer_position - 1) 0
          match t with
          | TransparencySetting.none =>
              .ok ((fb0 &&& u8CheckedShrOr0 255 offset) ||| u8Shl previous_byte (8 - offset))
          | _ => .error RsPanic.unimplemented
        else .error RsPanic.indexOutOfBounds
      else .ok fb0
    match step1 with
    | .error e => .error e
    | .ok b1 =>
        if i < w / 8 then
          if ab.buffer_position < buffer.length then
            let current_byte := buffer.getD ab.buffer_position 0
            match t with
            | TransparencySetting.none =>
                .ok (Function.update fb afb.buffer_position
                      ((b1 &&& u8CheckedShlOr0 255 (8 - offset)) ||| (current_byte >>> offset)))
            | _ => .error RsPanic.unimplemented
          else .error RsPanic.indexOutOfBounds
        else .ok (Function.update fb afb.buffer_position b1)
  else .error RsPanic.indexOutOfBounds

/-- `draw_buffer_with_transparency`: `for j in 0..h { for i in 0..(w/8)+1 { ... } }`. -/
def draw_buffer_with_transparency (d : Ssd1680Display) (buffer : List Nat)
    (x y w h : Nat) (t : TransparencySetting) : Except RsPanic Ssd1680Display :=
  match (List.range h).foldlM
      (fun fb j => (List.range (w / 8 + 1)).foldlM
        (fun fb i => drawStepE fb buffer x y w d.width t j i) fb)
      d.frame_buffer with
  | .error e => .error e
  | .ok fb => .ok { d with frame_buffer := fb }

/-- `draw_buffer` delegates to `draw_buffer_with_transparency` with `TransparencySetting::None`. -/
def draw_buffer (d : Ssd1680Display) (buffer : List Nat) (x y w h : Nat) :
    Except RsPanic Ssd1680Display :=
  draw_buffer_with_transparency d buffer x y w h TransparencySetting.none

/-- The five delegated controller-driver operations `refresh` can invoke. -/
inductive DriverStep where
  | hwInit
  | writeBwBytes
  | fullRefresh
  | partRefresh
  | enterDeepSleep
deriving DecidableEq, Repr

/-- Outcome of each delegated controller operation, fixed for one `refresh` call.
`partRefresh` models the driver's `partial_refresh` operation. -/
structure DriverOutcomes (E : Type) where
  hwInit : Except E Unit
  writeBwBytes : Except E Unit
  fullRefresh : Except E Unit
  partRefresh : Except E Unit
  enterDeepSleep : Except E Unit

/-- `refresh` from `ssd1680.rs`.  Returns the Rust `Result`, the updated display state and
the ordered list of delegated controller operations that were invoked.  The slice
`&self.frame_buffer[0..(self.height * self.width / 8) as usize]` panics when its
end exceeds `FRAME_BUFFER_SIZE` (the `u16` product wraps first). -/
def refresh {E : Type} (o : DriverOutcomes E) (d : Ssd1680Display) (force_full : Bool) :
    Except RsPanic (Except E Unit × Ssd1680Display × List DriverStep) :=
  match o.hwInit with
  | .error e => .ok (.error e, d, [DriverStep.hwInit])
  | .ok _ =>
    if d.height * d.width % 65536 / 8 ≤ FRAME_BUFFER_SIZE then
      match o.writeBwBytes with
      | .error e => .ok (.error e, d, [DriverStep.hwInit, DriverStep.writeBwBytes])
      | .ok _ =>
        if 5 ≤ d.refresh_count ∨ force_full = true then
          match o.fullRefresh with
          | .error e => .ok (.error e, d,
              [DriverStep.hwInit, DriverStep.writeBwBytes, DriverStep.fullRefresh])
          | .ok _ =>
            .ok (o.enterDeepSleep, { d with refresh_count := 0 },
              [DriverStep.hwInit, DriverStep.writeBwBytes, DriverStep.fullRefresh,
                DriverStep.enterDeepSleep])
        else
          match o.partRefresh with
          | .error e => .ok (.error e, d,
              [DriverStep.hwInit, DriverStep.writeBwBytes, DriverStep.partRefresh])
          | .ok _ =>
            .ok (o.enterDeepSleep, { d with refresh_count := (d.refresh_count + 1) % 256 },
              [DriverStep.hwInit, DriverStep.writeBwBytes, DriverStep.partRefresh,
                DriverStep.enterDeepSleep])
    else .error RsPanic.sliceOutOfBounds

/-- Is an `Except` computation a success? -/
def exceptIsOk {ε α : Type} : Except ε α → Bool
  | .ok _ => true
  | .error _ => false

/-- Byte `idx` of the frame buffer of a successful display computation. -/
def exceptByte (r : Except RsPanic Ssd1680Display) (idx : Nat) : Option Nat :=
  match r with
  | .ok d => some (d.frame_buffer idx)
  | .error _ => none

/-- Controller oracle in which every delegated operation succeeds. -/
def allOk : DriverOutcomes Unit :=
  { hwInit := .ok (), writeBwBytes := .ok (), fullRefresh := .ok (),
    partRefresh := .ok (), enterDeepSleep := .ok () }

/-- A `refresh` call against the all-success oracle, projected to the new state and
the invoked-operation trace (`none` on a panic, which cannot happen for sane geometry). -/
def refreshOk (d : Ssd1680Display) (force : Bool) :
    Option (Ssd1680Display × List DriverStep) :=
  match refresh allOk d force with
  | .ok (_, d1, tr) => some (d1, tr)
  | .error _ => none

/-- Iterate `refresh(false)` against the all-success oracle `n` times. -/
def runFalse (d : Ssd1680Display) : Nat → Option Ssd1680Display
  | 0 => some d
  | n + 1 => (runFalse d n).bind fun d1 => (refreshOk d1 false).map Prod.fst

/-- The invoked-operation trace of the `n`-th (1-indexed) `refresh(false)` call. -/
def callTrace (d : Ssd1680Display) (n : Nat) : Option (List DriverStep) :=
  (runFalse d (n - 1)).bind fun d1 => (refreshOk d1 false).map Prod.snd

/-- `refresh_count` after `n` `refresh(false)` calls. -/
def countAfter (d : Ssd1680Display) (n : Nat) : Option Nat :=
  (runFalse d n).map Ssd1680Display.refresh_count

/-- Did the `n`-th `refresh(false)` call perform a full refresh? -/
def traceFull (d : Ssd1680Display) (n : Nat) : Option Bool :=
  (callTrace d n).map fun l => l.contains DriverStep.fullRefresh

/-- A display as built by `Ssd1680Display::new` for the 176 × 296 panel. -/
def freshDisplay : Ssd1680Display := Ssd1680Display.new 176 296

/-- The source-buffer byte indices that the blit loop actually reads for some row:
`k` lies in the window `[j*w/8, j*w/8 + w/8)` of a row `j < h`. -/
def rowWindow (w h k : Nat) : Prop :=
  ∃ j, j < h ∧ j * w / 8 ≤ k ∧ k < j * w / 8 + w / 8

instance (w h k : Nat) : Decidable (rowWindow w h k) := by
  unfold rowWindow; infer_instance

/-- Pointwise frame-buffer update: replace byte `p` by `f` of its old value. -/
def modifyByte (p : Nat) (f : Nat → Nat) (fb : Nat → Nat) : Nat → Nat :=
  Function.update fb p (f (fb p))

/-- Run a list of pointwise updates left to right. -/
def applySteps (L : List (Nat × (Nat → Nat))) (fb : Nat → Nat) : Nat → Nat :=
  L.foldl (fun acc q => modifyByte q.1 q.2 acc) fb

/-- Destination byte index written by loop iteration `(j, i)`. -/
def stepPos (x y width j i : Nat) : Nat :=
  (get_address ((x + i * 8) % 65536) ((y + j) % 65536) width).buffer_position

/-- Source byte index consulted by loop iteration `(j, i)`. -/
def bufPos (w j i : Nat) : Nat :=
  (get_address (i * 8) j w).buffer_position

/-- The pure byte transformation applied by loop iteration `(j, i)` in `Opaque`
(`TransparencySetting::None`) mode. -/
def stepFn (buffer : List Nat) (x w j i : Nat) (b : Nat) : Nat :=
  let offset := ((x + i * 8) % 65536) % 8
  let b1 :=
    if i ≠ 0 ∧ offset ≠ 0 then
      (b &&& u8CheckedShrOr0 255 offset) |||
        u8Shl (buffer.getD (bufPos w j i - 1) 0) (8 - offset)
    else b
  if i < w / 8 then
    (b1 &&& u8CheckedShlOr0 255 (8 - offset)) ||| (buffer.getD (bufPos w j i) 0 >>> offset)
  else b1

/-- The loop iterations of `draw_buffer_with_transparency` in order, as
(destination byte, byte transformation) pairs. -/
def drawSteps (buffer : List Nat) (x y w h width : Nat) : List (Nat × (Nat → Nat)) :=
  (List.range h).flatMap fun j =>
    (List.range (w / 8 + 1)).map fun i => (stepPos x y width j i, stepFn buffer x w j i)

/-- The display state produced by blitting the 8-wide source `[0xFF, 0x00]` at
`(x, y) = (3, 0)` into a fresh display: bytes 0 and 1 become `0x1F` and `0xE0`. -/
def drawnDisplay : Ssd1680Display :=
  { freshDisplay with
    frame_buffer := Function.update (Function.update freshDisplay.frame_buffer 0 31) 1 224 }

/-- A small display state with mid-range `refresh_count = 2`, used to exercise the
forced-full-refresh path. -/
def tinyDisplay : Ssd1680Display :=
  { frame_buffer := fun _ => 0
    width := 4
    height := 3
    refresh_count := 2 }

/-- Controller oracle whose write-bytes step fails (errors with `()`). -/
def writeFailOutcomes : DriverOutcomes Unit :=
  { hwInit := .ok (), writeBwBytes := .error (), fullRefresh := .ok (),
    partRefresh := .ok (), enterDeepSleep := .ok () }

/-! ### Basic `Except` computation lemmas -/

theorem except_bind_err {ε α β : Type} (e : ε) (g : α → Except ε β) :
    (Except.error e : Except ε α) >>= g = Except.error e := rfl

theorem except_bind_ok {ε α β : Type} (a : α) (g : α → Except ε β) :
    (Except.ok a : Except ε α) >>= g = g a := rfl

/-! ### C3: `set_buffer` -/

/-- C3 counterexample: called with a byte sequence whose length differs from the
frame-buffer capacity, `set_buffer` does not return a `SizeMismatch` error to the
caller — it panics (the `copy_from_slice` length-mismatch abort); the function has
no error return at all. -/
theorem set_buffer_mismatch_cex :
    set_buffer freshDisplay [] = Except.error RsPanic.sliceLenMismatch ∧
    (List.nil : List Nat).length ≠ FRAME_BUFFER_SIZE :=
  ⟨rfl, by decide⟩

/-- C3 amended: with input of exactly the frame-buffer capacity, `set_buffer`
succeeds and the frame buffer afterwards equals the input byte for byte; with any
other input length it panics (aborts) instead of returning a size-mismatch error. -/
theorem set_buffer_amended (d : Ssd1680Display) (buffer : List Nat) :
    (buffer.length = FRAME_BUFFER_SIZE →
      set_buffer d buffer = .ok { d with frame_buffer := fun idx => buffer.getD idx 0 }) ∧
    (buffer.length ≠ FRAME_BUFFER_SIZE →
      set_buffer d buffer = .error RsPanic.sliceLenMismatch) := by
  constructor <;> intro hl <;> simp [set_buffer, hl]

theorem set_buffer_amended_witness :
    (List.replicate FRAME_BUFFER_SIZE 7).length = FRAME_BUFFER_SIZE ∧
    set_buffer freshDisplay (List.replicate FRAME_BUFFER_SIZE 7) =
      .ok { freshDisplay with
            frame_buffer := fun idx => (List.replicate FRAME_BUFFER_SIZE 7).getD idx 0 } :=
  ⟨List.length_replicate _ _,
    (set_buffer_amended freshDisplay (List.replicate FRAME_BUFFER_SIZE 7)).1
      (List.length_replicate _ _)⟩

/-! ### C8: `get_address` -/

/-- C8 counterexample: at `x = 0`, `y = 8192`, `width = 8` (all valid `u16` values,
`x < width`, `8 ∣ width`), the `u16` product `y * width = 65536` wraps to `0`, so the
returned byte index is `0`, not the mathematical `x/8 + y*width/8 = 8192`. -/
theorem get_address_cex :
    (get_address 0 8192 8).buffer_position = 0 ∧
    0 / 8 + 8192 * 8 / 8 = 8192 ∧
    (get_address 0 8192 8).buffer_position ≠ 0 / 8 + 8192 * 8 / 8 ∧
    (0 : Nat) < 8 ∧ 8 % 8 = 0 := by decide

/-- C8 amended: for all `(x, y, width)` with `x < width`, `width` a multiple of 8 and
no `u16` overflow in the product (`y * width < 2^16`), the address translator returns
`byte_index = x/8 + y*width/8` and `bit_offset = x % 8 ∈ [0, 7]`. -/
theorem get_address_amended (x y width : Nat) (_hx : x < width) (_hdvd : width % 8 = 0)
    (hno : y * width < 65536) :
    (get_address x y width).buffer_position = x / 8 + y * width / 8 ∧
    (get_address x y width).byte_offset = x % 8 ∧
    (get_address x y width).byte_offset < 8 := by
  refine ⟨?_, rfl, Nat.mod_lt x (by norm_num)⟩
  unfold get_address
  simp [Nat.mod_eq_of_lt hno]

theorem get_address_amended_witness :
    (5 < 16 ∧ 16 % 8 = 0 ∧ 3 * 16 < 65536) ∧
    ((get_address 5 3 16).buffer_position = 5 / 8 + 3 * 16 / 8 ∧
     (get_address 5 3 16).byte_offset = 5 % 8 ∧
     (get_address 5 3 16).byte_offset < 8) :=
  ⟨by decide, get_address_amended 5 3 16 (by decide) (by decide) (by decide)⟩

/-! ### C6: blit alignment byte values -/

/-- C6: drawing an 8×1 all-white (`0xFF`) source at `(0, 0)` into the all-black fresh
frame buffer yields byte `0xFF` at index 0 and leaves byte 1 at `0x00`; drawing it at
`x = 4` yields `0x0F` in the first affected byte and `0xF0` in the second (the
shift-by-8 cases saturate to zero instead of panicking, so the call succeeds). -/
theorem blit_alignment_bytes :
    exceptByte (draw_buffer freshDisplay [255] 0 0 8 1) 0 = some 255 ∧
    exceptByte (draw_buffer freshDisplay [255] 0 0 8 1) 1 = some 0 ∧
    exceptByte (draw_buffer freshDisplay [255] 4 0 8 1) 0 = some 15 ∧
    exceptByte (draw_buffer freshDisplay [255] 4 0 8 1) 1 = some 240 := by decide

/-! ### C1: refresh cadence -/

/-- C1 counterexample: starting from a fresh display with every controller step
succeeding, calls 2–5 are partial refreshes leaving the counter at 1, 2, 3, 4, but the
5th call after the reset (call 6) is again a partial refresh leaving the counter at 5 —
not a full refresh with the counter back at 0 as claimed. -/
theorem refresh_cadence_cex :
    traceFull freshDisplay 1 = some true ∧ countAfter freshDisplay 1 = some 0 ∧
    countAfter freshDisplay 2 = some 1 ∧ countAfter freshDisplay 3 = some 2 ∧
    countAfter freshDisplay 4 = some 3 ∧ countAfter freshDisplay 5 = some 4 ∧
    traceFull freshDisplay 6 = some false ∧
    callTrace freshDisplay 6 = some [DriverStep.hwInit, DriverStep.writeBwBytes,
      DriverStep.partRefresh, DriverStep.enterDeepSleep] ∧
    countAfter freshDisplay 6 = some 5 := by decide

/-- C1 amended: from a fresh display with every controller step succeeding, the first
`refresh(false)` is full (counter 0); the next **5** calls are partial (counter
1, 2, 3, 4, 5); the **6th** call after the reset is full again (counter back to 0); and
`refresh(true)` at any counter value is full, resets the counter to 0 and runs the
full hardware sequence. -/
theorem refresh_cadence_amended :
    (traceFull freshDisplay 1 = some true ∧ countAfter freshDisplay 1 = some 0 ∧
     traceFull freshDisplay 2 = some false ∧ countAfter freshDisplay 2 = some 1 ∧
     traceFull freshDisplay 3 = some false ∧ countAfter freshDisplay 3 = some 2 ∧
     traceFull freshDisplay 4 = some false ∧ countAfter freshDisplay 4 = some 3 ∧
     traceFull freshDisplay 5 = some false ∧ countAfter freshDisplay 5 = some 4 ∧
     traceFull freshDisplay 6 = some false ∧ countAfter freshDisplay 6 = some 5 ∧
     traceFull freshDisplay 7 = some true ∧ countAfter freshDisplay 7 = some 0) ∧
    (∀ d : Ssd1680Display, d.height * d.width % 65536 / 8 ≤ FRAME_BUFFER_SIZE →
      refreshOk d true = some ({ d with refresh_count := 0 },
        [DriverStep.hwInit, DriverStep.writeBwBytes, DriverStep.fullRefresh,
         DriverStep.enterDeepSleep])) := by
  constructor
  · decide
  · intro d hd
    unfold refreshOk refresh allOk
    simp [hd]

theorem refresh_cadence_amended_witness :
    (tinyDisplay.height * tinyDisplay.width % 65536 / 8 ≤ FRAME_BUFFER_SIZE) ∧
    refreshOk tinyDisplay true =
      some ({ tinyDisplay with refresh_count := 0 },
        [DriverStep.hwInit, DriverStep.writeBwBytes, DriverStep.fullRefresh,
         DriverStep.enterDeepSleep]) :=
  ⟨by decide, refresh_cadence_amended.2 _ (by decide)⟩

/-! ### C9: failure propagation in `refresh` -/

/-- C9: the first failing delegated controller step aborts `refresh` with that same
error and no later hardware step is attempted (in particular a write-bytes failure
returns before full/partial refresh and deep sleep); when no step fails,
`enter_deep_sleep` is the terminal step on both the full and the partial path and its
outcome is what `refresh` returns. -/
theorem refresh_failure_propagation {E : Type} (o : DriverOutcomes E) (d : Ssd1680Display)
    (force : Bool) (hslice : d.height * d.width % 65536 / 8 ≤ FRAME_BUFFER_SIZE) :
    (∀ e, o.hwInit = .error e →
      refresh o d force = .ok (.error e, d, [DriverStep.hwInit])) ∧
    (∀ e, o.hwInit = .ok () → o.writeBwBytes = .error e →
      refresh o d force = .ok (.error e, d, [DriverStep.hwInit, DriverStep.writeBwBytes])) ∧
    (∀ e, o.hwInit = .ok () → o.writeBwBytes = .ok () →
      (5 ≤ d.refresh_count ∨ force = true) → o.fullRefresh = .error e →
      refresh o d force = .ok (.error e, d,
        [DriverStep.hwInit, DriverStep.writeBwBytes, DriverStep.fullRefresh])) ∧
    (∀ e, o.hwInit = .ok () → o.writeBwBytes = .ok () →
      ¬(5 ≤ d.refresh_count ∨ force = true) → o.partRefresh = .error e →
      refresh o d force = .ok (.error e, d,
        [DriverStep.hwInit, DriverStep.writeBwBytes, DriverStep.partRefresh])) ∧
    (o.hwInit = .ok () → o.writeBwBytes = .ok () →
      (5 ≤ d.refresh_count ∨ force = true) → o.fullRefresh = .ok () →
      refresh o d force = .ok (o.enterDeepSleep, { d with refresh_count := 0 },
        [DriverStep.hwInit, DriverStep.writeBwBytes, DriverStep.fullRefresh,
         DriverStep.enterDeepSleep])) ∧
    (o.hwInit = .ok () → o.writeBwBytes = .ok () →
      ¬(5 ≤ d.refresh_count ∨ force = true) → o.partRefresh = .ok () →
      refresh o d force = .ok (o.enterDeepSleep,
        { d with refresh_count := (d.refresh_count + 1) % 256 },
        [DriverStep.hwInit, DriverStep.writeBwBytes, DriverStep.partRefresh,
         DriverStep.enterDeepSleep])) := by
  refine ⟨?_, ?_, ?_, ?_, ?_, ?_⟩
  · intro e h1
    unfold refresh; rw [h1]
  · intro e h1 h2
    unfold refresh; rw [h1, h2]; simp [hslice]
  · intro e h1 h2 hc h3
    unfold refresh; rw [h1, h2, h3]; simp [hslice, hc]
  · intro e h1 h2 hc h3
    unfold refresh; rw [h1, h2, h3]; simp [hslice, hc]
  · intro h1 h2 hc h3
    unfold refresh; rw [h1, h2, h3]; simp [hslice, hc]
  · intro h1 h2 hc h3
    unfold refresh; rw [h1, h2, h3]; simp [hslice, hc]

theorem refresh_failure_propagation_witness :
    (freshDisplay.height * freshDisplay.width % 65536 / 8 ≤ FRAME_BUFFER_SIZE) ∧
    refresh writeFailOutcomes freshDisplay false =
      .ok (.error (), freshDisplay, [DriverStep.hwInit, DriverStep.writeBwBytes]) :=
  ⟨by decide,
    (refresh_failure_propagation writeFailOutcomes freshDisplay false (by decide)).2.1
      () rfl rfl⟩

/-! ### C10: frame effects of `refresh` -/

/-- C10: `refresh` never modifies the frame buffer or the geometry; `refresh_count` is
unchanged whenever hardware-initialize, the frame-buffer write, or the chosen refresh
command fails; after a successful full refresh it is `0` and after a successful partial
refresh it is incremented by one — in both cases regardless of the outcome of the final
`enter_deep_sleep` step. -/
theorem refresh_frame_effects {E : Type} (o : DriverOutcomes E) (d : Ssd1680Display)
    (force : Bool) :
    (∀ r d1 tr, refresh o d force = .ok (r, d1, tr) →
      d1.frame_buffer = d.frame_buffer ∧ d1.width = d.width ∧ d1.height = d.height) ∧
    (∀ e r d1 tr, o.hwInit = .error e →
      refresh o d force = .ok (r, d1, tr) → d1 = d) ∧
    (∀ e r d1 tr, o.writeBwBytes = .error e →
      refresh o d force = .ok (r, d1, tr) → d1 = d) ∧
    (∀ e r d1 tr, (5 ≤ d.refresh_count ∨ force = true) → o.fullRefresh = .error e →
      refresh o d force = .ok (r, d1, tr) → d1 = d) ∧
    (∀ e r d1 tr, ¬(5 ≤ d.refresh_count ∨ force = true) → o.partRefresh = .error e →
      refresh o d force = .ok (r, d1, tr) → d1 = d) ∧
    (∀ r d1 tr, o.hwInit = .ok () → o.writeBwBytes = .ok () →
      (5 ≤ d.refresh_count ∨ force = true) → o.fullRefresh = .ok () →
      refresh o d force = .ok (r, d1, tr) → d1.refresh_count = 0) ∧
    (∀ r d1 tr, o.hwInit = .ok () → o.writeBwBytes = .ok () →
      ¬(5 ≤ d.refresh_count ∨ force = true) → o.partRefresh = .ok () →
      refresh o d force = .ok (r, d1, tr) → d1.refresh_count = d.refresh_count + 1) := by
  refine ⟨?_, ?_, ?_, ?_, ?_, ?_, ?_⟩
  · intro r d1 tr hr
    unfold refresh at hr
    rcases h1 : o.hwInit with e1 | u1 <;> rw [h1] at hr
    · simp at hr
      obtain ⟨-, h, -⟩ := hr
      rw [← h]
      exact ⟨rfl, rfl, rfl⟩
    · split_ifs at hr with hs hc
      · rcases h2 : o.writeBwBytes with e2 | u2 <;> rw [h2] at hr
        · simp at hr
          obtain ⟨-, h, -⟩ := hr
          rw [← h]
          exact ⟨rfl, rfl, rfl⟩
        · rcases h3 : o.fullRefresh with e3 | u3 <;> rw [h3] at hr <;> simp at hr <;>
            obtain ⟨-, h, -⟩ := hr <;> rw [← h] <;> exact ⟨rfl, rfl, rfl⟩
      · rcases h2 : o.writeBwBytes with e2 | u2 <;> rw [h2] at hr
        · simp at hr
          obtain ⟨-, h, -⟩ := hr
          rw [← h]
          exact ⟨rfl, rfl, rfl⟩
        · rcases h3 : o.partRefresh with e3 | u3 <;> rw [h3] at hr <;> simp at hr <;>
            obtain ⟨-, h, -⟩ := hr <;> rw [← h] <;> exact ⟨rfl, rfl, rfl⟩
  · intro e r d1 tr hstep hr
    unfold refresh at hr
    rw [hstep] at hr
    simp at hr
    exact hr.2.1.symm
  · intro e r d1 tr hstep hr
    unfold refresh at hr
    rcases h1 : o.hwInit with e1 | u1 <;> rw [h1] at hr
    · simp at hr
      exact hr.2.1.symm
    · split_ifs at hr with hs hc
      · rw [hstep] at hr
        simp at hr
        exact hr.2.1.symm
      · rw [hstep] at hr
        simp at hr
        exact hr.2.1.symm
  · intro e r d1 tr hc hstep hr
    unfold refresh at hr
    rcases h1 : o.hwInit with e1 | u1 <;> rw [h1] at hr
    · simp at hr
      exact hr.2.1.symm
    · rw [if_pos hc, hstep] at hr
      split_ifs at hr with hs
      · rcases h2 : o.writeBwBytes with e2 | u2 <;> rw [h2] at hr <;> simp at hr <;>
          exact hr.2.1.symm
  · intro e r d1 tr hc hstep hr
    unfold refresh at hr
    rcases h1 : o.hwInit with e1 | u1 <;> rw [h1] at hr
    · simp at hr
      exact hr.2.1.symm
    · rw [if_neg hc, hstep] at hr
      split_ifs at hr with hs
      · rcases h2 : o.writeBwBytes with e2 | u2 <;> rw [h2] at hr <;> simp at hr <;>
          exact hr.2.1.symm
  · intro r d1 tr h1 h2 hc h3 hr
    unfold refresh at hr
    rw [h1, if_pos hc, h2, h3] at hr
    split_ifs at hr with hs
    · simp at hr
      rw [← hr.2.1]
  · intro r d1 tr h1 h2 hc h3 hr
    have hlt : d.refresh_count < 5 := by
      by_contra hge
      exact hc (Or.inl (by omega))
    unfold refresh at hr
    rw [h1, if_neg hc, h2, h3] at hr
    split_ifs at hr with hs
    · simp at hr
      rw [← hr.2.1]
      exact Nat.mod_eq_of_lt (by omega)

theorem refresh_frame_effects_witness :
    refresh allOk freshDisplay false =
      .ok (.ok (), { freshDisplay with refresh_count := 0 },
        [DriverStep.hwInit, DriverStep.writeBwBytes, DriverStep.fullRefresh,
         DriverStep.enterDeepSleep]) ∧
    ({ freshDisplay with refresh_count := 0 } : Ssd1680Display).frame_buffer =
      freshDisplay.frame_buffer ∧
    ({ freshDisplay with refresh_count := 0 } : Ssd1680Display).refresh_count = 0 :=
  ⟨rfl,
    ((refresh_frame_effects allOk freshDisplay false).1 _ _ _ rfl).1,
    (refresh_frame_effects allOk freshDisplay false).2.2.2.2.2.1 _ _ _ rfl rfl
      (Or.inl (by decide)) rfl rfl⟩

/-! ### C2: unsupported transparency modes -/

/-- With an unsupported transparency mode and `8 ≤ w`, the very first loop iteration
`(j, i) = (0, 0)` aborts: it reaches a transparency match arm (or fails an index
check first) and therefore panics. -/
theorem drawStepE_first_err (fb : Nat → Nat) (buffer : List Nat) (x y w width : Nat)
    (t : TransparencySetting) (ht : t ≠ TransparencySetting.none) (hw : 8 ≤ w) :
    ∃ e, drawStepE fb buffer x y w width t 0 0 = .error e := by
  have hw8 : 0 < w / 8 := Nat.div_pos hw (by norm_num)
  cases t with
  | none => exact absurd rfl ht
  | blackTransparent =>
      unfold drawStepE
      dsimp only
      split_ifs <;> exact ⟨_, rfl⟩
  | whiteTransparent =>
      unfold drawStepE
      dsimp only
      split_ifs <;> exact ⟨_, rfl⟩

/-- C2 counterexample: a blit with `BlackTransparent` and source width `w = 4 < 8`
returns successfully (silently, no failure), and so does one with `WhiteTransparent`
and `h = 0`; the claimed "always fails" behavior does not hold for `w < 8` or `h = 0`. -/
theorem draw_unsupported_silent_cex :
    exceptIsOk (draw_buffer_with_transparency freshDisplay [255] 0 0 4 1
      TransparencySetting.blackTransparent) = true ∧
    draw_buffer_with_transparency freshDisplay [255] 0 0 8 0
      TransparencySetting.whiteTransparent = .ok freshDisplay ∧
    exceptIsOk (draw_buffer_with_transparency freshDisplay [255] 4 0 4 1
      TransparencySetting.whiteTransparent) = true :=
  ⟨by decide, rfl, by decide⟩

/-- C2 amended: with `BlackTransparent` or `WhiteTransparent`, the call never returns
successfully when `h ≥ 1` and `w ≥ 8` (it aborts, via `unimplemented!()` or an index
panic, before completing); but when `h = 0` (and likewise when `w < 8`) the
transparency match is never reached and the call silently returns success. -/
theorem draw_unsupported_amended :
    (∀ (d : Ssd1680Display) (buffer : List Nat) (x y w h : Nat) (t : TransparencySetting),
      t ≠ TransparencySetting.none → 1 ≤ h → 8 ≤ w →
      exceptIsOk (draw_buffer_with_transparency d buffer x y w h t) = false) ∧
    (∀ (d : Ssd1680Display) (buffer : List Nat) (x y w : Nat) (t : TransparencySetting),
      draw_buffer_with_transparency d buffer x y w 0 t = .ok d) := by
  constructor
  · intro d buffer x y w h t ht hh hw
    obtain ⟨h1, rfl⟩ : ∃ h1, h = h1 + 1 := ⟨h - 1, by omega⟩
    obtain ⟨e, he⟩ := drawStepE_first_err d.frame_buffer buffer x y w d.width t ht hw
    unfold draw_buffer_with_transparency
    simp only [List.range_succ_eq_map, List.foldlM_cons, he, except_bind_err]
    rfl
  · intro d buffer x y w t
    rfl

theorem draw_unsupported_amended_witness :
    (TransparencySetting.blackTransparent ≠ TransparencySetting.none ∧
      (1 : Nat) ≤ 1 ∧ (8 : Nat) ≤ 8) ∧
    exceptIsOk (draw_buffer_with_transparency freshDisplay [255] 0 0 8 1
      TransparencySetting.blackTransparent) = false ∧
    draw_buffer_with_transparency freshDisplay [255] 0 0 8 0
      TransparencySetting.blackTransparent = .ok freshDisplay :=
  ⟨⟨by decide, by decide, by decide⟩,
    draw_unsupported_amended.1 freshDisplay [255] 0 0 8 1
      TransparencySetting.blackTransparent (by decide) (by decide) (by decide),
    draw_unsupported_amended.2 freshDisplay [255] 0 0 8
      TransparencySetting.blackTransparent⟩

/-! ### Pointwise update algebra -/

theorem modifyByte_at (p : Nat) (f : Nat → Nat) (fb : Nat → Nat) :
    modifyByte p f fb p = f (fb p) := by
  unfold modifyByte
  rw [Function.update_same]

theorem modifyByte_at_ne (p q : Nat) (f : Nat → Nat) (fb : Nat → Nat) (h : q ≠ p) :
    modifyByte p f fb q = fb q := by
  unfold modifyByte
  rw [Function.update_noteq h]

theorem modifyByte_id (p : Nat) (f : Nat → Nat) (hid : ∀ v, f v = v) (fb : Nat → Nat) :
    modifyByte p f fb = fb := by
  unfold modifyByte
  rw [hid]
  exact Function.update_eq_self p fb

theorem modifyByte_idem (p : Nat) (f : Nat → Nat) (hf : ∀ v, f (f v) = f v) (fb : Nat → Nat) :
    modifyByte p f (modifyByte p f fb) = modifyByte p f fb := by
  unfold modifyByte
  rw [Function.update_same, hf, Function.update_idem]

theorem modifyByte_comm (p q : Nat) (f g : Nat → Nat) (h : p ≠ q) (fb : Nat → Nat) :
    modifyByte p f (modifyByte q g fb) = modifyByte q g (modifyByte p f fb) := by
  unfold modifyByte
  rw [Function.update_noteq h, Function.update_noteq (Ne.symm h), Function.update_comm (Ne.symm h)]

theorem applySteps_nil (fb : Nat → Nat) : applySteps [] fb = fb := rfl

theorem applySteps_cons (q : Nat × (Nat → Nat)) (L : List (Nat × (Nat → Nat))) (fb : Nat → Nat) :
    applySteps (q :: L) fb = applySteps L (modifyByte q.1 q.2 fb) := rfl

theorem applySteps_append (L1 L2 : List (Nat × (Nat → Nat))) (fb : Nat → Nat) :
    applySteps (L1 ++ L2) fb = applySteps L2 (applySteps L1 fb) := by
  unfold applySteps
  rw [List.foldl_append]

theorem applySteps_at_notin (L : List (Nat × (Nat → Nat))) (p : Nat)
    (h : ∀ q ∈ L, q.1 ≠ p) : ∀ fb, applySteps L fb p = fb p := by
  induction L with
  | nil => intro fb; rfl
  | cons q T ih =>
      intro fb
      rw [applySteps_cons, ih (fun b hb => h b (List.mem_cons_of_mem q hb)),
        modifyByte_at_ne _ _ _ _ (Ne.symm (h q (List.mem_cons_self q T)))]

theorem applySteps_modify_comm (L : List (Nat × (Nat → Nat))) (p : Nat) (f : Nat → Nat)
    (h : ∀ q ∈ L, q.1 ≠ p) : ∀ fb, applySteps L (modifyByte p f fb) = modifyByte p f (applySteps L fb) := by
  induction L with
  | nil => intro fb; rfl
  | cons q T ih =>
      intro fb
      rw [applySteps_cons, applySteps_cons,
        modifyByte_comm q.1 p q.2 f (h q (List.mem_cons_self q T)) fb,
        ih (fun b hb => h b (List.mem_cons_of_mem q hb))]

theorem applySteps_idem (L : List (Nat × (Nat → Nat)))
    (hdup : L.Pairwise (fun a b => a.1 = b.1 → ∀ v, a.2 v = v))
    (hidem : ∀ q ∈ L, ∀ v, q.2 (q.2 v) = q.2 v) :
    ∀ fb, applySteps L (applySteps L fb) = applySteps L fb := by
  induction L with
  | nil => intro fb; rfl
  | cons q T ih =>
      rw [List.pairwise_cons] at hdup
      intro fb
      by_cases hmem : ∃ b ∈ T, b.1 = q.1
      · obtain ⟨b, hb, hbq⟩ := hmem
        have hid : ∀ v, q.2 v = v := hdup.1 b hb hbq.symm
        simp only [applySteps_cons, modifyByte_id q.1 q.2 hid]
        exact ih hdup.2 (fun b hb => hidem b (List.mem_cons_of_mem q hb)) fb
      · push_neg at hmem
        have hq : ∀ v, q.2 (q.2 v) = q.2 v := hidem q (List.mem_cons_self q T)
        have ihT := ih hdup.2 (fun b hb => hidem b (List.mem_cons_of_mem q hb))
        rw [applySteps_cons, applySteps_cons,
          applySteps_modify_comm T q.1 q.2 hmem,
          ihT (modifyByte q.1 q.2 fb),
          ← applySteps_modify_comm T q.1 q.2 hmem,
          modifyByte_idem q.1 q.2 hq]

/-! ### Mask-or byte transformations -/

theorem maskor_idem (M C b : Nat) : (((b &&& M) ||| C) &&& M) ||| C = (b &&& M) ||| C := by
  apply Nat.eq_of_testBit_eq
  intro k
  simp only [Nat.testBit_lor, Nat.testBit_land]
  cases hb : b.testBit k <;> cases hM : M.testBit k <;> cases hC : C.testBit k <;> rfl

theorem maskor2_idem (m1 P m2 C b : Nat) :
    ((((((b &&& m1) ||| P) &&& m2) ||| C) &&& m1) ||| P) &&& m2 ||| C =
      (((b &&& m1) ||| P) &&& m2) ||| C := by
  apply Nat.eq_of_testBit_eq
  intro k
  simp only [Nat.testBit_lor, Nat.testBit_land]
  cases hb : b.testBit k <;> cases h1 : m1.testBit k <;> cases h2 : m2.testBit k <;>
    cases hP : P.testBit k <;> cases hC : C.testBit k <;> rfl

theorem stepFn_idem (buffer : List Nat) (x w j i : Nat) (b : Nat) :
    stepFn buffer x w j i (stepFn buffer x w j i b) = stepFn buffer x w j i b := by
  unfold stepFn
  dsimp only
  split_ifs with h1 h2
  · exact maskor2_idem _ _ _ _ b
  · exact maskor_idem _ _ b
  · exact maskor_idem _ _ b
  · rfl

/-! ### Arithmetic facts about loop positions -/

theorem stepOffset_eq (x i : Nat) : ((x + i * 8) % 65536) % 8 = x % 8 := by
  rw [Nat.mod_mod_of_dvd _ (by norm_num : (8 : Nat) ∣ 65536), Nat.add_mul_mod_self_right]

theorem bufPos_clean (w j i : Nat) (hjw : j * w < 65536) :
    bufPos w j i = i + j * w / 8 := by
  unfold bufPos get_address
  dsimp only
  rw [Nat.mul_div_cancel i (by norm_num : 0 < 8), Nat.mod_eq_of_lt hjw]

theorem stepPos_clean (x y w h width height j i : Nat)
    (hx : x + w ≤ width) (hy : y + h ≤ height) (hdvd : width % 8 = 0)
    (hWH : height * width ≤ 65535) (hj : j < h) (hi : i < w / 8 + 1) :
    stepPos x y width j i = x / 8 + i + (y + j) * (width / 8) := by
  have hi8 : i * 8 ≤ w :=
    le_trans (Nat.mul_le_mul_right 8 (by omega : i ≤ w / 8)) (Nat.div_mul_le_self w 8)
  rcases Nat.eq_zero_or_pos width with hw0 | hwpos
  · have hw' : w = 0 := by omega
    have hx0 : x = 0 := by omega
    have hi0 : i = 0 := by
      have h8 : w / 8 = 0 := by rw [hw']
      omega
    subst hw0 hx0 hw' hi0
    unfold stepPos get_address
    simp
  · have hhW : 1 ≤ height := by omega
    have hwle : width ≤ 65535 := by
      have := Nat.mul_le_mul_right width hhW
      omega
    have hhle : height ≤ 65535 := by
      have := Nat.mul_le_mul_left height hwpos
      omega
    have hX : x + i * 8 < 65536 := by omega
    have hYW : (y + j) * width ≤ 65535 := by
      have h1 : (y + j + 1) * width ≤ height * width := Nat.mul_le_mul_right width (by omega)
      have h2 : (y + j + 1) * width = (y + j) * width + width := by ring
      omega
    unfold stepPos get_address
    dsimp only
    rw [Nat.mod_eq_of_lt hX, Nat.mod_eq_of_lt (by omega : y + j < 65536),
      Nat.mod_eq_of_lt (by omega : (y + j) * width < 65536),
      Nat.add_mul_div_right x i (by norm_num : 0 < 8),
      Nat.mul_div_assoc (y + j) (Nat.dvd_of_mod_eq_zero hdvd)]

theorem stepPos_bound (x y w h width height j i : Nat)
    (hx : x + w ≤ width) (hy : y + h ≤ height) (hdvd : width % 8 = 0)
    (hWH : height * width ≤ 65535) (hj : j < h) (hi : i < w / 8 + 1) :
    stepPos x y width j i ≤ height * width / 8 := by
  rw [stepPos_clean x y w h width height j i hx hy hdvd hWH hj hi]
  have hi8 : i * 8 ≤ w :=
    le_trans (Nat.mul_le_mul_right 8 (by omega : i ≤ w / 8)) (Nat.div_mul_le_self w 8)
  have h1 : x / 8 + i ≤ width / 8 := by
    have hle : (x + i * 8) / 8 ≤ width / 8 := Nat.div_le_div_right (by omega)
    rw [Nat.add_mul_div_right x i (by norm_num : 0 < 8)] at hle
    exact hle
  calc x / 8 + i + (y + j) * (width / 8)
      ≤ width / 8 + (y + j) * (width / 8) := by omega
    _ = (y + j + 1) * (width / 8) := by ring
    _ ≤ height * (width / 8) := Nat.mul_le_mul_right (width / 8) (by omega)
    _ = height * width / 8 := (Nat.mul_div_assoc height (Nat.dvd_of_mod_eq_zero hdvd)).symm

/-- Two distinct loop iterations that write the same destination byte can only be the
`(j, w/8)` spill-over iteration of one row colliding with `(j+1, 0)` of the next, which
forces `x = 0` (byte-aligned) and `w` a full multiple of the row width — and then the
earlier iteration performs no write at all (its byte transformation is the identity). -/
theorem stepFn_id_of_dup (buffer : List Nat) (x y w h width height : Nat)
    (hx : x + w ≤ width) (hy : y + h ≤ height) (hdvd : width % 8 = 0)
    (hWH : height * width ≤ 65535)
    (j i j' i' : Nat) (hj : j < h) (hi : i < w / 8 + 1) (hj' : j' < h) (hi' : i' < w / 8 + 1)
    (hlt : j < j' ∨ (j = j' ∧ i < i'))
    (heq : stepPos x y width j i = stepPos x y width j' i') :
    ∀ v, stepFn buffer x w j i v = v := by
  rw [stepPos_clean x y w h width height j i hx hy hdvd hWH hj hi,
    stepPos_clean x y w h width height j' i' hx hy hdvd hWH hj' hi'] at heq
  have hK : w / 8 ≤ width / 8 := Nat.div_le_div_right (by omega : w ≤ width)
  rcases hlt with hjj | ⟨rfl, hii⟩
  · have hsucc : (y + j + 1) * (width / 8) = (y + j) * (width / 8) + width / 8 := by ring
    have hmul : (y + j + 1) * (width / 8) ≤ (y + j') * (width / 8) :=
      Nat.mul_le_mul_right (width / 8) (by omega)
    have hi_eq : i = w / 8 := by omega
    have hK_eq : w / 8 = width / 8 := by omega
    have hx8 : i = 0 ∨ x % 8 = 0 := by
      rcases Nat.eq_zero_or_pos (width / 8) with h0 | hpos8
      · left; omega
      · right
        have h8w : width / 8 * 8 = width := Nat.div_mul_cancel (Nat.dvd_of_mod_eq_zero hdvd)
        have hw8 : w / 8 * 8 ≤ w := Nat.div_mul_le_self w 8
        omega
    intro v
    unfold stepFn
    dsimp only
    rw [stepOffset_eq]
    rw [if_neg (by omega : ¬ i < w / 8),
      if_neg (show ¬(i ≠ 0 ∧ x % 8 ≠ 0) by
        rcases hx8 with h0 | h0
        · exact fun hc => hc.1 h0
        · exact fun hc => hc.2 h0)]
  · exfalso
    omega

/-- Pairwise property of a row-major double loop, built from within-row and
across-row comparisons. -/
theorem flatMap_map_pairwise {α : Type} (g : Nat → Nat → α) (R : α → α → Prop) (h n : Nat)
    (h1 : ∀ j i i', j < h → i < i' → i' < n → R (g j i) (g j i'))
    (h2 : ∀ j j' i i', j < j' → j' < h → i < n → i' < n → R (g j i) (g j' i')) :
    ((List.range h).flatMap fun j => (List.range n).map (g j)).Pairwise R := by
  induction h with
  | zero => simp
  | succ m ih =>
      rw [List.range_succ, List.flatMap_append, List.pairwise_append]
      refine ⟨ih (fun j i i' hj hii hi' => h1 j i i' (by omega) hii hi')
        (fun j j' i i' hjj hj' hi hi' => h2 j j' i i' hjj (by omega) hi hi'), ?_, ?_⟩
      · simp only [List.flatMap_cons, List.flatMap_nil, List.append_nil]
        rw [List.pairwise_map]
        refine List.Pairwise.imp_of_mem ?_ (List.pairwise_lt_range n)
        intro a b ha hb hab
        rw [List.mem_range] at hb
        exact h1 m a b (by omega) hab hb
      · intro a ha b hb
        rw [List.mem_flatMap] at ha
        obtain ⟨j, hj, ha⟩ := ha
        rw [List.mem_map] at ha
        obtain ⟨i, hi, rfl⟩ := ha
        simp only [List.flatMap_cons, List.flatMap_nil, List.append_nil, List.mem_map] at hb
        obtain ⟨i', hi', rfl⟩ := hb
        rw [List.mem_range] at hj hi
        rw [List.mem_range] at hi'
        exact h2 j m i i' hj (by omega) hi hi'

theorem drawSteps_pairwise (buffer : List Nat) (x y w h width height : Nat)
    (hx : x + w ≤ width) (hy : y + h ≤ height) (hdvd : width % 8 = 0)
    (hWH : height * width ≤ 65535) :
    (drawSteps buffer x y w h width).Pairwise (fun a b => a.1 = b.1 → ∀ v, a.2 v = v) := by
  unfold drawSteps
  apply flatMap_map_pairwise
  · intro j i i' hj hii hi' hpp v
    exact stepFn_id_of_dup buffer x y w h width height hx hy hdvd hWH j i j i'
      hj (by omega) hj hi' (Or.inr ⟨rfl, hii⟩) hpp v
  · intro j j' i i' hjj hj' hi hi' hpp v
    exact stepFn_id_of_dup buffer x y w h width height hx hy hdvd hWH j i j' i'
      (by omega) hi hj' hi' (Or.inl hjj) hpp v

theorem drawSteps_mem (buffer : List Nat) (x y w h width : Nat) (q : Nat × (Nat → Nat))
    (hq : q ∈ drawSteps buffer x y w h width) :
    ∃ j i, j < h ∧ i < w / 8 + 1 ∧ q = (stepPos x y width j i, stepFn buffer x w j i) := by
  unfold drawSteps at hq
  simp only [List.mem_flatMap, List.mem_map, List.mem_range] at hq
  obtain ⟨j, hj, i, hi, rfl⟩ := hq
  exact ⟨j, i, hj, hi, rfl⟩

/-! ### Linking the monadic loop to the pure step list -/

theorem drawStepE_ok (fb : Nat → Nat) (buffer : List Nat) (x y w width : Nat) (j i : Nat)
    (hpos : stepPos x y width j i < FRAME_BUFFER_SIZE)
    (hb1 : i ≠ 0 → x % 8 ≠ 0 → bufPos w j i - 1 < buffer.length)
    (hb2 : i < w / 8 → bufPos w j i < buffer.length) :
    drawStepE fb buffer x y w width TransparencySetting.none j i =
      .ok (modifyByte (stepPos x y width j i) (stepFn buffer x w j i) fb) := by
  unfold stepPos at hpos
  unfold bufPos at hb1 hb2
  simp only [get_address] at hpos hb1 hb2
  unfold drawStepE stepFn modifyByte stepPos bufPos
  simp only [get_address]
  rw [stepOffset_eq]
  by_cases hc1 : i ≠ 0 ∧ x % 8 ≠ 0
  · have hbp1 := hb1 hc1.1 hc1.2
    by_cases hc2 : i < w / 8
    · have hbp2 := hb2 hc2
      rw [if_pos hpos, if_pos hc1, if_pos hbp1]
      dsimp only
      rw [if_pos hc2, if_pos hbp2]
      simp only [if_pos hc1, if_pos hc2]
    · rw [if_pos hpos, if_pos hc1, if_pos hbp1]
      dsimp only
      rw [if_neg hc2]
      simp only [if_pos hc1, if_neg hc2]
  · by_cases hc2 : i < w / 8
    · have hbp2 := hb2 hc2
      rw [if_pos hpos, if_neg hc1]
      dsimp only
      rw [if_pos hc2, if_pos hbp2]
      simp only [if_neg hc1, if_pos hc2]
    · rw [if_pos hpos, if_neg hc1]
      dsimp only
      rw [if_neg hc2]
      simp only [if_neg hc1, if_neg hc2]

theorem foldlM_eq_foldl {β : Type} (idx : List β)
    (F : (Nat → Nat) → β → Except RsPanic (Nat → Nat))
    (G : β → (Nat → Nat) → (Nat → Nat))
    (hok : ∀ b ∈ idx, ∀ fb, F fb b = .ok (G b fb)) :
    ∀ fb, idx.foldlM F fb = .ok (idx.foldl (fun acc b => G b acc) fb) := by
  induction idx with
  | nil => intro fb; rfl
  | cons a l ih =>
      intro fb
      rw [List.foldlM_cons, hok a (List.mem_cons_self a l) fb, except_bind_ok, List.foldl_cons]
      exact ih (fun b hb fb2 => hok b (List.mem_cons_of_mem a hb) fb2) (G a fb)

theorem applySteps_flatMap (g : Nat → List (Nat × (Nat → Nat))) (l : List Nat) :
    ∀ fb, applySteps (l.flatMap g) fb = l.foldl (fun acc j => applySteps (g j) acc) fb := by
  induction l with
  | nil => intro fb; rfl
  | cons a t ih =>
      intro fb
      rw [List.flatMap_cons, applySteps_append, List.foldl_cons, ih]

theorem applySteps_map (g : Nat → Nat × (Nat → Nat)) (l : List Nat) (fb : Nat → Nat) :
    applySteps (l.map g) fb = l.foldl (fun acc i => modifyByte (g i).1 (g i).2 acc) fb := by
  unfold applySteps
  rw [List.foldl_map]

/-- Under the blit preconditions, `draw_buffer_with_transparency` in `Opaque` mode
succeeds and its effect on the frame buffer is exactly the pure step list
`drawSteps` applied in order. -/
theorem draw_none_ok (d : Ssd1680Display) (buffer : List Nat) (x y w h : Nat)
    (hx : x + w ≤ d.width) (hy : y + h ≤ d.height) (hdvd : d.width % 8 = 0)
    (hWH : d.height * d.width ≤ 65535) (hfb : d.height * d.width / 8 < FRAME_BUFFER_SIZE)
    (hbuf : h * w / 8 + w / 8 ≤ buffer.length) :
    draw_buffer_with_transparency d buffer x y w h TransparencySetting.none =
      .ok { d with
            frame_buffer := applySteps (drawSteps buffer x y w h d.width) d.frame_buffer } := by
  have hok : ∀ j ∈ List.range h, ∀ fb : Nat → Nat,
      (List.range (w / 8 + 1)).foldlM
        (fun fb i => drawStepE fb buffer x y w d.width TransparencySetting.none j i) fb =
      .ok (applySteps ((List.range (w / 8 + 1)).map
        (fun i => (stepPos x y d.width j i, stepFn buffer x w j i))) fb) := by
    intro j hj fb
    rw [List.mem_range] at hj
    rw [applySteps_map]
    refine foldlM_eq_foldl (List.range (w / 8 + 1)) _ _ ?_ fb
    intro i hi fb2
    rw [List.mem_range] at hi
    have hjw : j * w < 65536 := by
      have h1 : j * w ≤ (y + j) * d.width := Nat.mul_le_mul (by omega) (by omega)
      have h2 : (y + j + 1) * d.width ≤ d.height * d.width :=
        Nat.mul_le_mul_right _ (by omega)
      have h3 : (y + j + 1) * d.width = (y + j) * d.width + d.width := by ring
      omega
    have hbp := bufPos_clean w j i hjw
    have hjw8 : j * w / 8 ≤ h * w / 8 :=
      Nat.div_le_div_right (Nat.mul_le_mul_right w (by omega))
    apply drawStepE_ok
    · exact lt_of_le_of_lt
        (stepPos_bound x y w h d.width d.height j i hx hy hdvd hWH hj hi) hfb
    · intro hi0 hx8
      rw [hbp]
      omega
    · intro hiw
      rw [hbp]
      omega
  unfold draw_buffer_with_transparency
  rw [foldlM_eq_foldl (List.range h) _
    (fun j fb => applySteps ((List.range (w / 8 + 1)).map
      (fun i => (stepPos x y d.width j i, stepFn buffer x w j i))) fb) hok d.frame_buffer]
  unfold drawSteps
  rw [applySteps_flatMap]

/-! ### Source-read windows of the blit -/

theorem list_getD_set_ne (l : List Nat) (p q v : Nat) (h : p ≠ q) :
    (l.set p v).getD q 0 = l.getD q 0 := by
  induction l generalizing p q with
  | nil => rfl
  | cons a t ih =>
      cases p with
      | zero =>
          cases q with
          | zero => exact absurd rfl h
          | succ q1 => rfl
      | succ p1 =>
          cases q with
          | zero => rfl
          | succ q1 => exact ih p1 q1 (by omega)

theorem stepFn_congr (B1 B2 : List Nat) (x w h j i : Nat) (hj : j < h) (hi : i < w / 8 + 1)
    (hjw : j * w < 65536)
    (hagree : ∀ k, rowWindow w h k → B1.getD k 0 = B2.getD k 0) :
    stepFn B1 x w j i = stepFn B2 x w j i := by
  funext b
  unfold stepFn
  dsimp only
  rw [stepOffset_eq, bufPos_clean w j i hjw]
  have ha1 : i ≠ 0 → B1.getD (i + j * w / 8 - 1) 0 = B2.getD (i + j * w / 8 - 1) 0 := by
    intro hi0
    exact hagree _ ⟨j, hj, by omega, by omega⟩
  have ha2 : i < w / 8 → B1.getD (i + j * w / 8) 0 = B2.getD (i + j * w / 8) 0 := by
    intro hiw
    exact hagree _ ⟨j, hj, by omega, by omega⟩
  by_cases hc1 : i ≠ 0 ∧ x % 8 ≠ 0
  · by_cases hc2 : i < w / 8
    · simp only [if_pos hc1, if_pos hc2, ha1 hc1.1, ha2 hc2]
    · simp only [if_pos hc1, if_neg hc2, ha1 hc1.1]
  · by_cases hc2 : i < w / 8
    · simp only [if_neg hc1, if_pos hc2, ha2 hc2]
    · simp only [if_neg hc1, if_neg hc2]

theorem drawSteps_congr (B1 B2 : List Nat) (x y w h width height : Nat)
    (hx : x + w ≤ width) (hy : y + h ≤ height) (hWH : height * width ≤ 65535)
    (hagree : ∀ k, rowWindow w h k → B1.getD k 0 = B2.getD k 0) :
    drawSteps B1 x y w h width = drawSteps B2 x y w h width := by
  unfold drawSteps
  refine List.flatMap_congr ?_
  intro j hj
  rw [List.mem_range] at hj
  refine List.map_congr_left ?_
  intro i hi
  rw [List.mem_range] at hi
  have hjw : j * w < 65536 := by
    have h1 : j * w ≤ (y + j) * width := Nat.mul_le_mul (by omega) (by omega)
    have h2 : (y + j + 1) * width ≤ height * width := Nat.mul_le_mul_right _ (by omega)
    have h3 : (y + j + 1) * width = (y + j) * width + width := by ring
    omega
  rw [stepFn_congr B1 B2 x w h j i hj hi hjw hagree]

/-- Two source buffers agreeing on the per-row read windows
`[j*w/8, j*w/8 + w/8)` produce identical blits. -/
theorem draw_none_agree_core (d : Ssd1680Display) (B1 B2 : List Nat) (x y w h : Nat)
    (hx : x + w ≤ d.width) (hy : y + h ≤ d.height) (hdvd : d.width % 8 = 0)
    (hWH : d.height * d.width ≤ 65535) (hfb : d.height * d.width / 8 < FRAME_BUFFER_SIZE)
    (hbuf1 : h * w / 8 + w / 8 ≤ B1.length) (hbuf2 : h * w / 8 + w / 8 ≤ B2.length)
    (hagree : ∀ k, rowWindow w h k → B1.getD k 0 = B2.getD k 0) :
    draw_buffer_with_transparency d B1 x y w h TransparencySetting.none =
      draw_buffer_with_transparency d B2 x y w h TransparencySetting.none := by
  rw [draw_none_ok d B1 x y w h hx hy hdvd hWH hfb hbuf1,
    draw_none_ok d B2 x y w h hx hy hdvd hWH hfb hbuf2,
    drawSteps_congr B1 B2 x y w h d.width d.height hx hy hWH hagree]

/-! ### C5: source row stride -/

/-- C5 counterexample: with `w = 12`, `h = 2` the bytes blended into destination row 1
are not read from the claimed `ceil(12/8) = 2`-byte-stride window `{2, 3}`: two sources
that agree on indices 2 and 3 but differ at index 1 produce different destination
row-1 bytes (the code reads row 1 from byte `1*12/8 = 1`). -/
theorem draw_stride_cex :
    exceptByte (draw_buffer freshDisplay [0, 255, 0, 0] 0 0 12 2) 22 = some 255 ∧
    exceptByte (draw_buffer freshDisplay [0, 0, 0, 0] 0 0 12 2) 22 = some 0 ∧
    List.getD [0, 255, 0, 0] 2 0 = List.getD [0, 0, 0, 0] 2 0 ∧
    List.getD [0, 255, 0, 0] 3 0 = List.getD [0, 0, 0, 0] 3 0 := by decide

/-- C5 amended: the blit interprets its source with continuous bit packing (floor
arithmetic): the source bytes blended into destination row `j` are read exclusively
from indices `j*w/8` through `j*w/8 + w/8 - 1` (integer division, which coincides with
the `ceil(w/8)` row stride only when `w` is a multiple of 8): sources agreeing on those
windows blit identically. -/
theorem draw_stride_amended (d : Ssd1680Display) (B1 B2 : List Nat) (x y w h : Nat)
    (hx : x + w ≤ d.width) (hy : y + h ≤ d.height) (hdvd : d.width % 8 = 0)
    (hWH : d.height * d.width ≤ 65535) (hfb : d.height * d.width / 8 < FRAME_BUFFER_SIZE)
    (hbuf1 : h * w / 8 + w / 8 ≤ B1.length) (hbuf2 : h * w / 8 + w / 8 ≤ B2.length)
    (hagree : ∀ k, rowWindow w h k → B1.getD k 0 = B2.getD k 0) :
    draw_buffer_with_transparency d B1 x y w h TransparencySetting.none =
      draw_buffer_with_transparency d B2 x y w h TransparencySetting.none :=
  draw_none_agree_core d B1 B2 x y w h hx hy hdvd hWH hfb hbuf1 hbuf2 hagree

theorem draw_stride_amended_witness :
    ((0 : Nat) + 12 ≤ freshDisplay.width ∧ (0 : Nat) + 1 ≤ freshDisplay.height ∧
      freshDisplay.width % 8 = 0 ∧ freshDisplay.height * freshDisplay.width ≤ 65535 ∧
      freshDisplay.height * freshDisplay.width / 8 < FRAME_BUFFER_SIZE ∧
      1 * 12 / 8 + 12 / 8 ≤ ([255, 240] : List Nat).length ∧
      1 * 12 / 8 + 12 / 8 ≤ ([255, 7] : List Nat).length) ∧
    draw_buffer_with_transparency freshDisplay [255, 240] 0 0 12 1
      TransparencySetting.none =
    draw_buffer_with_transparency freshDisplay [255, 7] 0 0 12 1
      TransparencySetting.none :=
  ⟨⟨by decide, by decide, by decide, by decide, by decide, by decide, by decide⟩,
    draw_stride_amended freshDisplay [255, 240] [255, 7] 0 0 12 1
      (by decide) (by decide) (by decide) (by decide) (by decide) (by decide) (by decide)
      (by
        rintro k ⟨j, hj, hk1, hk2⟩
        have hj0 : j = 0 := by omega
        subst hj0
        norm_num at hk1 hk2
        have hk0 : k = 0 := by omega
        subst hk0
        rfl)⟩

/-! ### C4: the trailing partial byte -/

/-- C4 counterexample: with `w = 12`, `h = 1`, `x = 0`, two sources that differ only in
the trailing partial byte (pixels 8–11) blit identically, and the second destination
byte stays `0x00` — the trailing `w mod 8` pixels never appear in the framebuffer. -/
theorem draw_trailing_cex :
    draw_buffer freshDisplay [255, 240] 0 0 12 1 = draw_buffer freshDisplay [255, 0] 0 0 12 1 ∧
    exceptByte (draw_buffer freshDisplay [255, 240] 0 0 12 1) 0 = some 255 ∧
    exceptByte (draw_buffer freshDisplay [255, 240] 0 0 12 1) 1 = some 0 :=
  ⟨rfl, by decide, by decide⟩

/-- C4 amended: the extra byte-group iteration `i = w/8` writes a partial final byte
only as the spill-over of the row's last full source byte (when `x mod 8 ≠ 0`); the
trailing `w mod 8` pixels of each source row are never read: changing any source byte
outside the per-row read windows `[j*w/8, j*w/8 + w/8)` leaves the framebuffer result
of `draw_buffer` unchanged. -/
theorem draw_trailing_amended (d : Ssd1680Display) (B : List Nat) (x y w h k v : Nat)
    (hx : x + w ≤ d.width) (hy : y + h ≤ d.height) (hdvd : d.width % 8 = 0)
    (hWH : d.height * d.width ≤ 65535) (hfb : d.height * d.width / 8 < FRAME_BUFFER_SIZE)
    (hbuf : h * w / 8 + w / 8 ≤ B.length) (hk : ¬ rowWindow w h k) :
    draw_buffer_with_transparency d (B.set k v) x y w h TransparencySetting.none =
      draw_buffer_with_transparency d B x y w h TransparencySetting.none := by
  refine draw_none_agree_core d (B.set k v) B x y w h hx hy hdvd hWH hfb ?_ hbuf ?_
  · rw [List.length_set]
    exact hbuf
  · intro k0 hk0
    exact list_getD_set_ne B k k0 v (fun hkk => hk (hkk ▸ hk0))

theorem draw_trailing_amended_witness :
    ((0 : Nat) + 12 ≤ freshDisplay.width ∧ (0 : Nat) + 1 ≤ freshDisplay.height ∧
      freshDisplay.width % 8 = 0 ∧ freshDisplay.height * freshDisplay.width ≤ 65535 ∧
      freshDisplay.height * freshDisplay.width / 8 < FRAME_BUFFER_SIZE ∧
      1 * 12 / 8 + 12 / 8 ≤ ([255, 0] : List Nat).length ∧ ¬ rowWindow 12 1 1) ∧
    draw_buffer_with_transparency freshDisplay (List.set [255, 0] 1 240) 0 0 12 1
      TransparencySetting.none =
    draw_buffer_with_transparency freshDisplay [255, 0] 0 0 12 1
      TransparencySetting.none :=
  ⟨⟨by decide, by decide, by decide, by decide, by decide, by decide, by decide⟩,
    draw_trailing_amended freshDisplay [255, 0] 0 0 12 1 1 240
      (by decide) (by decide) (by decide) (by decide) (by decide) (by decide) (by decide)⟩

/-! ### C7: idempotence of `draw_buffer` -/

/-- C7: under the bounds preconditions (blit inside the panel, sane geometry, source
long enough), `draw_buffer` is idempotent: a second call with identical arguments
leaves the framebuffer exactly as after the first. -/
theorem draw_buffer_idem (d : Ssd1680Display) (buffer : List Nat) (x y w h : Nat)
    (hx : x + w ≤ d.width) (hy : y + h ≤ d.height) (hdvd : d.width % 8 = 0)
    (hWH : d.height * d.width ≤ 65535) (hfb : d.height * d.width / 8 < FRAME_BUFFER_SIZE)
    (hbuf : h * w / 8 + w / 8 ≤ buffer.length) :
    ∀ d1, draw_buffer d buffer x y w h = .ok d1 → draw_buffer d1 buffer x y w h = .ok d1 := by
  intro d1 h1
  unfold draw_buffer at h1 ⊢
  rw [draw_none_ok d buffer x y w h hx hy hdvd hWH hfb hbuf] at h1
  have hd1 : d1 = { d with
      frame_buffer := applySteps (drawSteps buffer x y w h d.width) d.frame_buffer } := by
    injection h1 with h1
    exact h1.symm
  subst hd1
  have h2 := draw_none_ok
    { d with frame_buffer := applySteps (drawSteps buffer x y w h d.width) d.frame_buffer }
    buffer x y w h hx hy hdvd hWH hfb hbuf
  rw [h2]
  have hidem : ∀ q ∈ drawSteps buffer x y w h d.width, ∀ v, q.2 (q.2 v) = q.2 v := by
    intro q hq v
    obtain ⟨j, i, hj, hi, rfl⟩ := drawSteps_mem buffer x y w h d.width q hq
    exact stepFn_idem buffer x w j i v
  have hdup := drawSteps_pairwise buffer x y w h d.width d.height hx hy hdvd hWH
  have hkey := applySteps_idem _ hdup hidem d.frame_buffer
  dsimp only
  rw [hkey]

theorem draw_buffer_idem_witness :
    ((3 : Nat) + 8 ≤ freshDisplay.width ∧ (0 : Nat) + 1 ≤ freshDisplay.height ∧
      freshDisplay.width % 8 = 0 ∧ freshDisplay.height * freshDisplay.width ≤ 65535 ∧
      freshDisplay.height * freshDisplay.width / 8 < FRAME_BUFFER_SIZE ∧
      1 * 8 / 8 + 8 / 8 ≤ ([255, 0] : List Nat).length ∧
      draw_buffer freshDisplay [255, 0] 3 0 8 1 = .ok drawnDisplay) ∧
    draw_buffer drawnDisplay [255, 0] 3 0 8 1 = .ok drawnDisplay :=
  ⟨⟨by decide, by decide, by decide, by decide, by decide, by decide, rfl⟩,
    draw_buffer_idem freshDisplay [255, 0] 3 0 8 1
      (by decide) (by decide) (by decide) (by decide) (by decide) (by decide)
      drawnDisplay rfl⟩
